import Mathlib

/-!
Shallow embedding of `src/httpserver/reachability_testing.cpp` (namespace
`loki`): the per-peer reachability ledger (`reachability_records_t`), the
self-health monitor (`check_incoming_tests`) and the retest selector
(`next_to_test`).

Modelling choices:
* `steady_clock::time_point` values are modelled as natural numbers of
  seconds of the monotonic clock; durations are `Nat` subtraction of such
  time points.  `UNREACH_GRACE_PERIOD` (120 minutes in the source) is
  therefore 7200 seconds.
* The peer public key `sn_pub_key_t` is opaque in the source (used only as
  a map key), so it is modelled as `Nat`.
* `std::map<sn_pub_key_t, reach_record_t>` is modelled as an association
  list with at most one binding per key in any state the code constructs;
  `find`, in-place mutation through the iterator, `insert` and `erase` are
  modelled by the corresponding list operations below.
-/

namespace Loki

/-- `ReportType` from the header: the kind of report being asked about. -/
inductive ReportType
  | GOOD
  | BAD
deriving DecidableEq

/-- `ReachType` from the header: the probed channel (HTTP or ZMQ/LMQ). -/
inductive ReachType
  | HTTP
  | ZMQ
deriving DecidableEq

/-- `detail::reach_record_t`: one record per peer believed unreachable. -/
structure ReachRecord where
  http_ok : Bool
  zmq_ok : Bool
  first_failure : Nat
  last_failure : Nat
  reported : Bool
deriving DecidableEq

/-- The default-constructed `reach_record_t`.  Its constructor in
reachability_testing.cpp sets `first_failure = steady_clock::now()` and
`last_failure = first_failure`.  Modelled from the spec: the member
defaults `http_ok = true`, `zmq_ok = true` and `reported = false` live in
`reachability_testing.h`, which is not among the sources; the spec states
that both channel flags default to true at record creation and that
`reported` marks a streak as already reported (so it starts false). -/
def mkRecord (now : Nat) : ReachRecord :=
  { http_ok := true
    zmq_ok := true
    first_failure := now
    last_failure := now
    reported := false }

/-- `constexpr std::chrono::minutes UNREACH_GRACE_PERIOD = 120min`,
expressed in seconds (the time unit of this model). -/
def UNREACH_GRACE_PERIOD : Nat := 120 * 60

abbrev SnPubKey := Nat

/-- The `offline_nodes_` map, as an association list. -/
abbrev Ledger := List (SnPubKey × ReachRecord)

/-- `offline_nodes_.find(sn)`: the first binding for `sn`, if any. -/
def findRecord : Ledger → SnPubKey → Option ReachRecord
  | [], _ => none
  | (k, r) :: tl, sn => if k = sn then some r else findRecord tl sn

/-- Mutation through the iterator returned by `find`: replace the (first)
binding for `sn` by the image under `f`, leaving everything else alone. -/
def updateRecord : Ledger → SnPubKey → (ReachRecord → ReachRecord) → Ledger
  | [], _, _ => []
  | (k, r) :: tl, sn, f =>
    if k = sn then (k, f r) :: tl else (k, r) :: updateRecord tl sn f

/-- `reachability_records_t::should_report_as`.  Note that the elapsed
time it tests against the grace period is
`record.last_failure - record.first_failure` (source line 52), not a
distance to the current clock; the function never samples the clock. -/
def should_report_as (l : Ledger) (sn : SnPubKey) (ty : ReportType) : Bool :=
  match findRecord l sn with
  | none =>
    -- no record, we must have recorded this node as reachable already
    false
  | some record =>
    match ty with
    | ReportType.GOOD =>
      -- only report as reachable if both ports are reachable
      record.http_ok && record.zmq_ok
    | ReportType.BAD =>
      if record.http_ok && record.zmq_ok then false
      else if record.reported then false
      else decide (record.last_failure - record.first_failure > UNREACH_GRACE_PERIOD)

/-- Setting the flag of one channel (`record.http_ok = val` /
`record.zmq_ok = val` in `record_reachable`). -/
def setChannel (record : ReachRecord) (ty : ReachType) (val : Bool) : ReachRecord :=
  match ty with
  | ReachType.HTTP => { record with http_ok := val }
  | ReachType.ZMQ => { record with zmq_ok := val }

/-- The body of `record_reachable` for an existing record and a failed
probe: `reachable_before` is captured from the record before the channel
flag is overwritten; `first_failure` is reset to `now` only on a
healthy-to-failing transition, `last_failure` is always set to `now`. -/
def failUpdate (record : ReachRecord) (ty : ReachType) (now : Nat) : ReachRecord :=
  let reachable_before := record.http_ok && record.zmq_ok
  let updated := setChannel record ty false
  { updated with
    first_failure := if reachable_before then now else updated.first_failure
    last_failure := now }

/-- `reachability_records_t::record_reachable`.  `now` stands for the
`steady_clock::now()` samples taken inside the call. -/
def record_reachable (l : Ledger) (sn : SnPubKey) (ty : ReachType) (val : Bool)
    (now : Nat) : Ledger :=
  match findRecord l sn with
  | none =>
    if val then
      -- the node is good and there is no record, so do nothing
      l
    else
      -- default-construct a record, clear the failed channel, insert it
      l ++ [(sn, setChannel (mkRecord now) ty false)]
  | some _ =>
    updateRecord l sn (fun record =>
      if val then setChannel record ty val
      else failUpdate record ty now)

/-- `reachability_records_t::expire`: erase the binding for `sn`; the
returned Bool is the erase count of the unique-key map (whether a record
was present). -/
def expire (l : Ledger) (sn : SnPubKey) : Ledger × Bool :=
  (l.filter (fun p => p.1 != sn), (findRecord l sn).isSome)

/-- `reachability_records_t::set_reported`: find the record and set its
`reported` flag; no-op when absent. -/
def set_reported (l : Ledger) (sn : SnPubKey) : Ledger :=
  updateRecord l sn (fun record => { record with reported := true })

/-- `std::min_element` over a non-empty range with the comparator
`lhs.second.last_failure < rhs.second.last_failure`: the first element no
later element is strictly smaller than. -/
def minElt (hd : SnPubKey × ReachRecord) (tl : Ledger) : SnPubKey × ReachRecord :=
  tl.foldl (fun best x => if x.2.last_failure < best.2.last_failure then x else best) hd

/-- `reachability_records_t::next_to_test`. -/
def next_to_test : Ledger → Option SnPubKey
  | [] => none
  | hd :: tl => some (minElt hd tl).1

/-- The self-health state of `reachability_records_t`: local channel
flags and the latest inbound-ping time points
(`latest_incoming_http_` / `latest_incoming_lmq_`). -/
structure SelfHealth where
  http_ok : Bool
  lmq_ok : Bool
  latest_incoming_http : Nat
  latest_incoming_lmq : Nat
deriving DecidableEq

/-- `MAX_TIME_WITHOUT_PING = PING_PEERS_INTERVAL * 18` (source line 75).
Modelled from the spec: `PING_PEERS_INTERVAL` is a constant of
`reachability_testing.h`, which is not among the sources; the spec leaves
it externally supplied, so it is a parameter here (in seconds). -/
def MAX_TIME_WITHOUT_PING (pingInterval : Nat) : Nat := pingInterval * 18

/-- `reachability_records_t::check_incoming_tests`.  `now` is the single
`steady_clock::now()` sample of the call; with the model's one-second
resolution the `duration_cast<seconds>` of the source is the identity. -/
def check_incoming_tests (pingInterval : Nat) (s : SelfHealth)
    (reset_time now : Nat) : SelfHealth :=
  let last_http := max reset_time s.latest_incoming_http
  let http_elapsed := now - last_http
  let s1 :=
    if http_elapsed > MAX_TIME_WITHOUT_PING pingInterval then
      { s with http_ok := false }
    else if !s.http_ok then
      { s with http_ok := true }
    else s
  let last_lmq := max reset_time s1.latest_incoming_lmq
  let lmq_elapsed := now - last_lmq
  if lmq_elapsed > MAX_TIME_WITHOUT_PING pingInterval then
    { s1 with lmq_ok := false }
  else if !s1.lmq_ok then
    { s1 with lmq_ok := true }
  else s1

/-- A ledger-mutating call of the kinds claim C3 quantifies over. -/
inductive LedgerOp
  | recordOp (sn : SnPubKey) (ty : ReachType) (val : Bool) (now : Nat)
  | reportOp (sn : SnPubKey)

/-- Apply one ledger-mutating call. -/
def applyOp (l : Ledger) : LedgerOp → Ledger
  | LedgerOp.recordOp sn ty val now => record_reachable l sn ty val now
  | LedgerOp.reportOp sn => set_reported l sn

/-- Apply a sequence of ledger-mutating calls, oldest first. -/
def applyOps (l : Ledger) (ops : List LedgerOp) : Ledger :=
  ops.foldl applyOp l

/-! Helper lemmas about the association-list map operations. -/

theorem findRecord_updateRecord_self (l : Ledger) (k : SnPubKey)
    (f : ReachRecord → ReachRecord) :
    findRecord (updateRecord l k f) k = (findRecord l k).map f := by
  induction l with
  | nil => rfl
  | cons hd tl ih =>
    obtain ⟨k0, r0⟩ := hd
    by_cases h : k0 = k
    · simp [updateRecord, findRecord, h]
    · simp [updateRecord, findRecord, h, ih]

theorem findRecord_updateRecord_other (l : Ledger) (k k2 : SnPubKey)
    (f : ReachRecord → ReachRecord) (h : k2 ≠ k) :
    findRecord (updateRecord l k f) k2 = findRecord l k2 := by
  induction l with
  | nil => rfl
  | cons hd tl ih =>
    obtain ⟨k0, r0⟩ := hd
    by_cases h0 : k0 = k
    · subst h0
      have hne : ¬ k0 = k2 := fun hc => h hc.symm
      simp [updateRecord, findRecord, hne]
    · simp [updateRecord, findRecord, h0, ih]

theorem findRecord_append_some (l l2 : Ledger) (k : SnPubKey) (r : ReachRecord)
    (h : findRecord l k = some r) :
    findRecord (l ++ l2) k = some r := by
  induction l with
  | nil => exact absurd h (by simp [findRecord])
  | cons hd tl ih =>
    obtain ⟨k0, r0⟩ := hd
    by_cases h0 : k0 = k
    · simp [findRecord, h0] at h ⊢
      exact h
    · simp [findRecord, h0] at h ⊢
      exact ih h

theorem findRecord_append_none (l l2 : Ledger) (k : SnPubKey)
    (h : findRecord l k = none) :
    findRecord (l ++ l2) k = findRecord l2 k := by
  induction l with
  | nil => rfl
  | cons hd tl ih =>
    obtain ⟨k0, r0⟩ := hd
    by_cases h0 : k0 = k
    · simp [findRecord, h0] at h
    · simp [findRecord, h0] at h ⊢
      exact ih h

theorem findRecord_filter_ne (l : Ledger) (k : SnPubKey) :
    findRecord (l.filter (fun p => p.1 != k)) k = none := by
  induction l with
  | nil => rfl
  | cons hd tl ih =>
    obtain ⟨k0, r0⟩ := hd
    rw [List.filter_cons]
    by_cases h0 : k0 = k
    · simpa [h0] using ih
    · have hkeep : ((k0, r0).1 != k) = true := by simp [h0]
      rw [if_pos hkeep]
      simpa [findRecord, h0] using ih

theorem updateRecord_of_none (l : Ledger) (k : SnPubKey)
    (f : ReachRecord → ReachRecord) (h : findRecord l k = none) :
    updateRecord l k f = l := by
  induction l with
  | nil => rfl
  | cons hd tl ih =>
    obtain ⟨k0, r0⟩ := hd
    by_cases h0 : k0 = k
    · simp [findRecord, h0] at h
    · simp [findRecord, h0] at h
      simp [updateRecord, h0, ih h]

theorem should_report_as_none (l : Ledger) (sn : SnPubKey) (ty : ReportType)
    (h : findRecord l sn = none) :
    should_report_as l sn ty = false := by
  unfold should_report_as
  rw [h]

theorem should_report_as_BAD_of_reported (l : Ledger) (sn : SnPubKey)
    (r : ReachRecord) (h : findRecord l sn = some r) (hrep : r.reported = true) :
    should_report_as l sn ReportType.BAD = false := by
  unfold should_report_as
  rw [h]
  by_cases hreach : (r.http_ok && r.zmq_ok) = true
  · simp [hreach]
  · simp [hreach, hrep]

theorem minElt_cons (hd x : SnPubKey × ReachRecord) (tl : Ledger) :
    minElt hd (x :: tl)
      = minElt (if x.2.last_failure < hd.2.last_failure then x else hd) tl := rfl

theorem minElt_mem (hd : SnPubKey × ReachRecord) (tl : Ledger) :
    minElt hd tl ∈ hd :: tl := by
  induction tl generalizing hd with
  | nil => simp [minElt]
  | cons x xs ih =>
    rw [minElt_cons]
    by_cases c : x.2.last_failure < hd.2.last_failure
    · rw [if_pos c]
      rcases List.mem_cons.mp (ih x) with h1 | h1
      · rw [h1]; simp
      · simp [h1]
    · rw [if_neg c]
      rcases List.mem_cons.mp (ih hd) with h1 | h1
      · rw [h1]; simp
      · simp [h1]

theorem minElt_le (hd : SnPubKey × ReachRecord) (tl : Ledger) :
    ∀ p ∈ hd :: tl, (minElt hd tl).2.last_failure ≤ p.2.last_failure := by
  induction tl generalizing hd with
  | nil =>
    intro p hp
    rcases List.mem_cons.mp hp with h1 | h1
    · rw [h1]; exact Nat.le_refl _
    · exact absurd h1 (List.not_mem_nil p)
  | cons x xs ih =>
    intro p hp
    rw [minElt_cons]
    by_cases c : x.2.last_failure < hd.2.last_failure
    · rw [if_pos c]
      rcases List.mem_cons.mp hp with h1 | h1
      · rw [h1]
        exact le_trans (ih x x (List.mem_cons_self x xs)) (le_of_lt c)
      · exact ih x p h1
    · rw [if_neg c]
      rcases List.mem_cons.mp hp with h1 | h1
      · rw [h1]
        exact ih hd hd (List.mem_cons_self hd xs)
      · rcases List.mem_cons.mp h1 with h2 | h2
        · rw [h2]
          exact le_trans (ih hd hd (List.mem_cons_self hd xs)) (Nat.le_of_not_lt c)
        · exact ih hd p (List.mem_cons_of_mem hd h2)

theorem failUpdate_reported (r : ReachRecord) (ty : ReachType) (now : Nat) :
    (failUpdate r ty now).reported = r.reported := by
  cases ty <;> simp [failUpdate, setChannel]

theorem setChannel_reported (r : ReachRecord) (ty : ReachType) (val : Bool) :
    (setChannel r ty val).reported = r.reported := by
  cases ty <;> simp [setChannel]

theorem record_reachable_of_none (l : Ledger) (sn : SnPubKey) (ty : ReachType)
    (val : Bool) (now : Nat) (h : findRecord l sn = none) :
    record_reachable l sn ty val now
      = if val then l else l ++ [(sn, setChannel (mkRecord now) ty false)] := by
  unfold record_reachable
  rw [h]

theorem record_reachable_of_some (l : Ledger) (sn : SnPubKey) (ty : ReachType)
    (val : Bool) (now : Nat) (r : ReachRecord) (h : findRecord l sn = some r) :
    record_reachable l sn ty val now
      = updateRecord l sn (fun record =>
          if val then setChannel record ty val else failUpdate record ty now) := by
  unfold record_reachable
  rw [h]

theorem reported_sticky_step (l : Ledger) (op : LedgerOp) (sn : SnPubKey)
    (r : ReachRecord) (h : findRecord l sn = some r) (hrep : r.reported = true) :
    ∃ r1, findRecord (applyOp l op) sn = some r1 ∧ r1.reported = true := by
  cases op with
  | recordOp sn2 ty val now =>
    show ∃ r1, findRecord (record_reachable l sn2 ty val now) sn = some r1 ∧ _
    cases hfind : findRecord l sn2 with
    | none =>
      rw [record_reachable_of_none l sn2 ty val now hfind]
      cases val
      · exact ⟨r, findRecord_append_some l _ sn r h, hrep⟩
      · exact ⟨r, h, hrep⟩
    | some r2 =>
      rw [record_reachable_of_some l sn2 ty val now r2 hfind]
      by_cases hsn : sn = sn2
      · subst hsn
        rw [findRecord_updateRecord_self, h]
        refine ⟨_, rfl, ?_⟩
        cases val <;> simp [failUpdate_reported, setChannel_reported, hrep]
      · rw [findRecord_updateRecord_other l sn2 sn _ hsn]
        exact ⟨r, h, hrep⟩
  | reportOp sn2 =>
    show ∃ r1, findRecord (set_reported l sn2) sn = some r1 ∧ _
    unfold set_reported
    by_cases hsn : sn = sn2
    · subst hsn
      rw [findRecord_updateRecord_self, h]
      exact ⟨_, rfl, rfl⟩
    · rw [findRecord_updateRecord_other l sn2 sn _ hsn]
      exact ⟨r, h, hrep⟩

theorem reported_sticky_ops (ops : List LedgerOp) :
    ∀ (l : Ledger) (sn : SnPubKey) (r : ReachRecord),
      findRecord l sn = some r → r.reported = true →
      ∃ r1, findRecord (applyOps l ops) sn = some r1 ∧ r1.reported = true := by
  induction ops with
  | nil => exact fun l sn r h hrep => ⟨r, h, hrep⟩
  | cons op ops ih =>
    intro l sn r h hrep
    obtain ⟨r1, h1, hrep1⟩ := reported_sticky_step l op sn r h hrep
    exact ih (applyOp l op) sn r1 h1 hrep1

theorem updateRecord_updateRecord (l : Ledger) (k : SnPubKey)
    (f g : ReachRecord → ReachRecord) :
    updateRecord (updateRecord l k f) k g
      = updateRecord l k (fun r => g (f r)) := by
  induction l with
  | nil => rfl
  | cons hd tl ih =>
    obtain ⟨k0, r0⟩ := hd
    by_cases h0 : k0 = k
    · simp [updateRecord, h0]
    · simp [updateRecord, h0, ih]

/-! The claims. -/

/-- Record used by the counterexample to claim C1: a single transient
failure observed at clock time 0 and never again. -/
def cexRecC1 : ReachRecord :=
  { http_ok := false
    zmq_ok := true
    first_failure := 0
    last_failure := 0
    reported := false }

/-- Claim C1 (counterexample): at clock time `now = 10000` seconds, peer 7
has an unreported record that is not fully reachable and whose
`first_failure` lies more than 120 minutes before `now`, yet
`should_report_as(7, BAD)` returns false: the code compares
`last_failure - first_failure` with the grace period, not the elapsed time
since `first_failure` up to now. -/
theorem should_report_bad_wallclock_cex :
    findRecord [(7, cexRecC1)] 7 = some cexRecC1
      ∧ cexRecC1.reported = false
      ∧ (cexRecC1.http_ok && cexRecC1.zmq_ok) = false
      ∧ 10000 - cexRecC1.first_failure > UNREACH_GRACE_PERIOD
      ∧ should_report_as [(7, cexRecC1)] 7 ReportType.BAD = false := by
  decide

/-- Claim C1 (amended): for a peer with an existing record that is not
fully reachable and with `reported = false`, `should_report_as(peer, BAD)`
returns true iff more than 120 minutes elapsed between the record's
`first_failure` and its `last_failure` timestamps (the length of the
observed failure streak), and false when that difference is at or below
120 minutes. -/
theorem should_report_bad_iff_streak (l : Ledger) (sn : SnPubKey)
    (r : ReachRecord) (h : findRecord l sn = some r)
    (hreach : (r.http_ok && r.zmq_ok) = false) (hrep : r.reported = false) :
    should_report_as l sn ReportType.BAD = true
      ↔ r.last_failure - r.first_failure > UNREACH_GRACE_PERIOD := by
  unfold should_report_as
  rw [h]
  simp [hreach, hrep]

/-- Witness instantiating the amended C1 at a concrete ledger whose
record has a failure streak of 7201 seconds. -/
def wrecC1 : ReachRecord :=
  { http_ok := false
    zmq_ok := true
    first_failure := 100
    last_failure := 7301
    reported := false }

theorem should_report_bad_iff_streak_witness :
    should_report_as [(3, wrecC1)] 3 ReportType.BAD = true
      ↔ wrecC1.last_failure - wrecC1.first_failure > UNREACH_GRACE_PERIOD :=
  should_report_bad_iff_streak [(3, wrecC1)] 3 wrecC1 rfl rfl rfl

/-- Claim C7: `set_reported` is a no-op when no record exists, is
idempotent, and after it `should_report_as(peer, BAD)` returns false no
matter what the record's timestamps are. -/
theorem set_reported_spec (l : Ledger) (sn : SnPubKey) :
    (findRecord l sn = none → set_reported l sn = l)
      ∧ set_reported (set_reported l sn) sn = set_reported l sn
      ∧ should_report_as (set_reported l sn) sn ReportType.BAD = false := by
  refine ⟨fun h => updateRecord_of_none l sn _ h, ?_, ?_⟩
  · unfold set_reported
    rw [updateRecord_updateRecord]
  · cases hfind : findRecord l sn with
    | none =>
      unfold set_reported
      rw [updateRecord_of_none l sn _ hfind]
      exact should_report_as_none l sn _ hfind
    | some r =>
      have hfound : findRecord (set_reported l sn) sn
          = some { r with reported := true } := by
        unfold set_reported
        rw [findRecord_updateRecord_self, hfind]
        rfl
      exact should_report_as_BAD_of_reported _ sn _ hfound rfl

/-- Witness instantiating C7 at a concrete one-record ledger with a
streak far beyond the grace period. -/
def wrecC7 : ReachRecord :=
  { http_ok := false
    zmq_ok := false
    first_failure := 0
    last_failure := 50000
    reported := false }

theorem set_reported_spec_witness :
    (findRecord [(4, wrecC7)] 4 = none → set_reported [(4, wrecC7)] 4 = [(4, wrecC7)])
      ∧ set_reported (set_reported [(4, wrecC7)] 4) 4 = set_reported [(4, wrecC7)] 4
      ∧ should_report_as (set_reported [(4, wrecC7)] 4) 4 ReportType.BAD = false :=
  set_reported_spec [(4, wrecC7)] 4

/-- Claim C8: `expire` removes the peer's record if present and returns
exactly whether one was removed; afterwards `should_report_as` returns
false for both kinds, as in the no-record case. -/
theorem expire_spec (l : Ledger) (sn : SnPubKey) :
    (expire l sn).2 = (findRecord l sn).isSome
      ∧ findRecord (expire l sn).1 sn = none
      ∧ should_report_as (expire l sn).1 sn ReportType.GOOD = false
      ∧ should_report_as (expire l sn).1 sn ReportType.BAD = false := by
  have hnone : findRecord (expire l sn).1 sn = none := findRecord_filter_ne l sn
  exact ⟨rfl, hnone, should_report_as_none _ sn _ hnone,
    should_report_as_none _ sn _ hnone⟩

/-- Claim C10: for a peer with no record, `should_report_as` returns
false for both GOOD and BAD; unknown peers are a defined default, not an
error, and the call does not mutate the ledger (in this model it is a
pure function of the ledger that returns only a Bool). -/
theorem should_report_as_no_record (l : Ledger) (sn : SnPubKey)
    (h : findRecord l sn = none) :
    should_report_as l sn ReportType.GOOD = false
      ∧ should_report_as l sn ReportType.BAD = false :=
  ⟨should_report_as_none l sn _ h, should_report_as_none l sn _ h⟩

theorem should_report_as_no_record_witness :
    should_report_as [] 0 ReportType.GOOD = false
      ∧ should_report_as [] 0 ReportType.BAD = false :=
  should_report_as_no_record [] 0 rfl

/-- Claim C2: for an existing record, a failed probe captures whether the
peer was fully healthy (both flags true) immediately before the update;
`first_failure` is reset to `now` exactly in that case, `last_failure` is
set to `now` unconditionally, and the probed channel's flag becomes
false. -/
theorem record_reachable_fail_existing (l : Ledger) (sn : SnPubKey)
    (ty : ReachType) (now : Nat) (r : ReachRecord)
    (h : findRecord l sn = some r) :
    ∃ r1, findRecord (record_reachable l sn ty false now) sn = some r1
      ∧ r1.last_failure = now
      ∧ r1.first_failure = (if r.http_ok && r.zmq_ok then now else r.first_failure)
      ∧ (ty = ReachType.HTTP → r1.http_ok = false)
      ∧ (ty = ReachType.ZMQ → r1.zmq_ok = false) := by
  rw [record_reachable_of_some l sn ty false now r h,
    findRecord_updateRecord_self, h]
  refine ⟨failUpdate r ty now, rfl, ?_, ?_, ?_, ?_⟩
  · simp [failUpdate]
  · cases ty <;> simp [failUpdate, setChannel]
  · intro hty; subst hty; simp [failUpdate, setChannel]
  · intro hty; subst hty; simp [failUpdate, setChannel]

/-- Witness record for C2: a fully-healthy retained record, so the
observed failure starts a fresh streak. -/
def wrecC2 : ReachRecord :=
  { http_ok := true
    zmq_ok := true
    first_failure := 5
    last_failure := 6
    reported := false }

theorem record_reachable_fail_existing_witness :
    ∃ r1, findRecord (record_reachable [(9, wrecC2)] 9 ReachType.HTTP false 777) 9 = some r1
      ∧ r1.last_failure = 777
      ∧ r1.first_failure = (if wrecC2.http_ok && wrecC2.zmq_ok then 777 else wrecC2.first_failure)
      ∧ (ReachType.HTTP = ReachType.HTTP → r1.http_ok = false)
      ∧ (ReachType.HTTP = ReachType.ZMQ → r1.zmq_ok = false) :=
  record_reachable_fail_existing [(9, wrecC2)] 9 ReachType.HTTP 777 wrecC2 rfl

/-- Claim C3: once a peer's record carries `reported = true`, no sequence
of `record_reachable` or `set_reported` calls (including a full recovery
followed by a relapse that restarts the streak) ever clears the flag; the
record survives with `reported = true` and `should_report_as(peer, BAD)`
returns false on the resulting ledger. -/
theorem reported_is_sticky (l : Ledger) (ops : List LedgerOp) (sn : SnPubKey)
    (r : ReachRecord) (h : findRecord l sn = some r) (hrep : r.reported = true) :
    ∃ r1, findRecord (applyOps l ops) sn = some r1
      ∧ r1.reported = true
      ∧ should_report_as (applyOps l ops) sn ReportType.BAD = false := by
  obtain ⟨r1, h1, hrep1⟩ := reported_sticky_ops ops l sn r h hrep
  exact ⟨r1, h1, hrep1, should_report_as_BAD_of_reported _ sn r1 h1 hrep1⟩

/-- Witness record for C3: an already-reported unreachable peer. -/
def wrecC3 : ReachRecord :=
  { http_ok := false
    zmq_ok := true
    first_failure := 0
    last_failure := 10000
    reported := true }

/-- Witness call sequence for C3: peer 1 fully recovers, then relapses
(restarting its streak), and an unrelated peer 2 is touched as well. -/
def wopsC3 : List LedgerOp :=
  [LedgerOp.recordOp 1 ReachType.HTTP true 100,
   LedgerOp.recordOp 1 ReachType.ZMQ true 100,
   LedgerOp.recordOp 1 ReachType.HTTP false 20000,
   LedgerOp.reportOp 2,
   LedgerOp.recordOp 2 ReachType.ZMQ false 20000]

theorem reported_is_sticky_witness :
    ∃ r1, findRecord (applyOps [(1, wrecC3)] wopsC3) 1 = some r1
      ∧ r1.reported = true
      ∧ should_report_as (applyOps [(1, wrecC3)] wopsC3) 1 ReportType.BAD = false :=
  reported_is_sticky [(1, wrecC3)] wopsC3 1 wrecC3 rfl rfl

/-- Claim C4: `check_incoming_tests` marks a channel unhealthy iff
`now - max(reset_time, latest_inbound_timestamp[channel])` exceeds
`MAX_TIME_WITHOUT_PING = PING_PEERS_INTERVAL * 18`, and otherwise the
channel ends up healthy: a previously unhealthy channel is marked healthy
again and an already-healthy channel stays healthy. -/
theorem check_incoming_tests_health (pingInterval : Nat) (s : SelfHealth)
    (reset_time now : Nat) :
    ((check_incoming_tests pingInterval s reset_time now).http_ok = false
        ↔ now - max reset_time s.latest_incoming_http > MAX_TIME_WITHOUT_PING pingInterval)
      ∧ ((check_incoming_tests pingInterval s reset_time now).lmq_ok = false
        ↔ now - max reset_time s.latest_incoming_lmq > MAX_TIME_WITHOUT_PING pingInterval) := by
  obtain ⟨shttp, slmq, lh, ll⟩ := s
  unfold check_incoming_tests
  by_cases h1 : now - max reset_time lh > MAX_TIME_WITHOUT_PING pingInterval <;>
    by_cases h2 : now - max reset_time ll > MAX_TIME_WITHOUT_PING pingInterval <;>
    cases shttp <;> cases slmq <;>
    simp [h1, h2]

/-- Claim C5: `next_to_test` returns none exactly on the empty ledger,
and on a non-empty ledger returns a peer whose record's `last_failure` is
minimal among all records (ties broken arbitrarily). -/
theorem next_to_test_spec (l : Ledger) :
    (l = [] → next_to_test l = none)
      ∧ (l ≠ [] → ∃ sn r, next_to_test l = some sn ∧ (sn, r) ∈ l
          ∧ ∀ p ∈ l, r.last_failure ≤ p.2.last_failure) := by
  constructor
  · intro h; subst h; rfl
  · intro h
    cases l with
    | nil => exact absurd rfl h
    | cons hd tl =>
      refine ⟨(minElt hd tl).1, (minElt hd tl).2, rfl, ?_, ?_⟩
      · rw [Prod.mk.eta]
        exact minElt_mem hd tl
      · exact minElt_le hd tl

/-- Witness ledger for C5: three records with distinct `last_failure`. -/
def wledC5 : Ledger :=
  [(1, { http_ok := false, zmq_ok := true, first_failure := 40, last_failure := 50, reported := false }),
   (2, { http_ok := true, zmq_ok := false, first_failure := 10, last_failure := 10, reported := false }),
   (3, { http_ok := false, zmq_ok := false, first_failure := 20, last_failure := 30, reported := true })]

theorem next_to_test_spec_witness :
    ∃ sn r, next_to_test wledC5 = some sn ∧ (sn, r) ∈ wledC5
      ∧ ∀ p ∈ wledC5, r.last_failure ≤ p.2.last_failure :=
  (next_to_test_spec wledC5).2 (by decide)

/-- Claim C6: a failed probe for a peer with no record creates a record
whose probed channel flag is false, whose other channel flag is true, and
whose `first_failure` and `last_failure` both equal the current time (with
`reported` still false). -/
theorem record_reachable_fail_fresh (l : Ledger) (sn : SnPubKey)
    (ty : ReachType) (now : Nat) (h : findRecord l sn = none) :
    ∃ r1, findRecord (record_reachable l sn ty false now) sn = some r1
      ∧ r1.first_failure = now
      ∧ r1.last_failure = now
      ∧ r1.reported = false
      ∧ (ty = ReachType.HTTP → r1.http_ok = false ∧ r1.zmq_ok = true)
      ∧ (ty = ReachType.ZMQ → r1.zmq_ok = false ∧ r1.http_ok = true) := by
  have hred : record_reachable l sn ty false now
      = l ++ [(sn, setChannel (mkRecord now) ty false)] := by
    rw [record_reachable_of_none l sn ty false now h]
    simp
  rw [hred, findRecord_append_none l _ sn h]
  refine ⟨setChannel (mkRecord now) ty false, by simp [findRecord], ?_, ?_, ?_, ?_, ?_⟩
  · cases ty <;> simp [setChannel, mkRecord]
  · cases ty <;> simp [setChannel, mkRecord]
  · cases ty <;> simp [setChannel, mkRecord]
  · intro hty; subst hty; simp [setChannel, mkRecord]
  · intro hty; subst hty; simp [setChannel, mkRecord]

theorem record_reachable_fail_fresh_witness :
    ∃ r1, findRecord (record_reachable [] 2 ReachType.ZMQ false 42) 2 = some r1
      ∧ r1.first_failure = 42
      ∧ r1.last_failure = 42
      ∧ r1.reported = false
      ∧ (ReachType.ZMQ = ReachType.HTTP → r1.http_ok = false ∧ r1.zmq_ok = true)
      ∧ (ReachType.ZMQ = ReachType.ZMQ → r1.zmq_ok = false ∧ r1.http_ok = true) :=
  record_reachable_fail_fresh [] 2 ReachType.ZMQ 42 rfl

/-- Claim C9: a successful probe (`ok = true`) leaves the whole ledger
unchanged when the peer has no record; with a record it changes only that
record's probed channel flag (every other field of the record is
unchanged) and leaves every other peer's lookup unchanged. -/
theorem record_reachable_ok_frame (l : Ledger) (sn : SnPubKey)
    (ty : ReachType) (now : Nat) :
    (findRecord l sn = none → record_reachable l sn ty true now = l)
      ∧ (∀ r, findRecord l sn = some r →
          (∃ r1, findRecord (record_reachable l sn ty true now) sn = some r1
            ∧ (ty = ReachType.HTTP → r1 = { r with http_ok := true })
            ∧ (ty = ReachType.ZMQ → r1 = { r with zmq_ok := true }))
          ∧ ∀ sn2, sn2 ≠ sn →
              findRecord (record_reachable l sn ty true now) sn2 = findRecord l sn2) := by
  constructor
  · intro h
    rw [record_reachable_of_none l sn ty true now h]
    simp
  · intro r h
    constructor
    · rw [record_reachable_of_some l sn ty true now r h,
        findRecord_updateRecord_self, h]
      refine ⟨setChannel r ty true, rfl, ?_, ?_⟩
      · intro hty; subst hty; rfl
      · intro hty; subst hty; rfl
    · intro sn2 hsn
      rw [record_reachable_of_some l sn ty true now r h]
      exact findRecord_updateRecord_other l sn sn2 _ hsn

/-- Witness record for C9: unreachable over HTTP, retained record. -/
def wrecC9 : ReachRecord :=
  { http_ok := false
    zmq_ok := true
    first_failure := 11
    last_failure := 12
    reported := false }

theorem record_reachable_ok_frame_witness :
    (findRecord [(5, wrecC9)] 5 = none →
        record_reachable [(5, wrecC9)] 5 ReachType.HTTP true 99 = [(5, wrecC9)])
      ∧ (∀ r, findRecord [(5, wrecC9)] 5 = some r →
          (∃ r1, findRecord (record_reachable [(5, wrecC9)] 5 ReachType.HTTP true 99) 5 = some r1
            ∧ (ReachType.HTTP = ReachType.HTTP → r1 = { r with http_ok := true })
            ∧ (ReachType.HTTP = ReachType.ZMQ → r1 = { r with zmq_ok := true }))
          ∧ ∀ sn2, sn2 ≠ 5 →
              findRecord (record_reachable [(5, wrecC9)] 5 ReachType.HTTP true 99) sn2
                = findRecord [(5, wrecC9)] sn2) :=
  record_reachable_ok_frame [(5, wrecC9)] 5 ReachType.HTTP 99

end Loki
